import Mathlib

/-!
Verification development for the tech_talk_downloader pipeline
(`src/main.rs`): a linear fetch → parse → download → convert → mux tool.

Shallow embedding conventions:
* Rust panics (`unwrap`, `expect`) are modelled by an outer `Option`:
  `none` means the function panics instead of returning.
* Rust `Result<T, String>` is modelled by `Except String T`.
* File-system and network effects are passed in explicitly and traces of
  the effects performed (number of requests, chunks written, progress
  positions, log lines) are returned alongside the result.
-/

namespace TechTalkDownloader

/-- One subtitle cue as built in `generate_srt_file`: a `TimeSpan` made of a
start and end time in milliseconds, plus the text. -/
structure SubtitleCue where
  start_time_ms : Int
  end_time_ms : Int
  text : String
  deriving Repr, DecidableEq

/-- Body of one iteration of the loop in `generate_srt_file`
(src/main.rs lines 89–103): `start_time = *times.get(i).unwrap()` (the
`unwrap` panic is `none`), and the end time is `times[i+1]` when present,
otherwise `start_time + 3000`. -/
def cueAt (times : List Int) (i : Nat) (text : String) : Option SubtitleCue :=
  (times[i]?).map fun start =>
    { start_time_ms := start
      end_time_ms := (times[(i+1)]?).getD (start + 3000)
      text := text }

/-- The `for (i, text) in texts.iter().enumerate()` loop of
`generate_srt_file`, accumulating the cue list; `i` is the current index. -/
def srtLoop (times : List Int) (i : Nat) : List String → Option (List SubtitleCue)
  | [] => some []
  | text :: rest =>
    match cueAt times i text with
    | none => none
    | some c => (srtLoop times (i+1) rest).map (fun cs => c :: cs)

/-- The cue list built by `generate_srt_file` from the parallel vectors
`times` and `texts` (before serialization). -/
def generate_srt_lines (times : List Int) (texts : List String) :
    Option (List SubtitleCue) :=
  srtLoop times 0 texts

/-- Reference description of cue `j` of the generated list, phrased with
total lookups; used to characterise `srtLoop`. -/
def cuesFrom (times : List Int) : Nat → List String → List SubtitleCue
  | _, [] => []
  | i, text :: rest =>
    { start_time_ms := (times[i]?).getD 0
      end_time_ms := (times[(i+1)]?).getD ((times[i]?).getD 0 + 3000)
      text := text } :: cuesFrom times (i+1) rest

theorem cuesFrom_length (times : List Int) :
    ∀ (texts : List String) (i : Nat), (cuesFrom times i texts).length = texts.length := by
  intro texts
  induction texts with
  | nil => intro i; rfl
  | cons t rest ih => intro i; simp [cuesFrom, ih]

theorem cuesFrom_getElem? (times : List Int) :
    ∀ (texts : List String) (i j : Nat),
      (cuesFrom times i texts)[j]? =
        (texts[j]?).map fun t =>
          { start_time_ms := (times[(i+j)]?).getD 0
            end_time_ms := (times[(i+j+1)]?).getD ((times[(i+j)]?).getD 0 + 3000)
            text := t } := by
  intro texts
  induction texts with
  | nil => intro i j; simp [cuesFrom]
  | cons t rest ih =>
    intro i j
    cases j with
    | zero => simp [cuesFrom]
    | succ j =>
      have h := ih (i+1) j
      simp only [cuesFrom, List.getElem?_cons_succ, h]
      have e1 : i + 1 + j = i + (j + 1) := by omega
      rw [e1]

theorem srtLoop_eq_cuesFrom (times : List Int) :
    ∀ (texts : List String) (i : Nat), i + texts.length ≤ times.length →
      srtLoop times i texts = some (cuesFrom times i texts) := by
  intro texts
  induction texts with
  | nil => intro i _; rfl
  | cons t rest ih =>
    intro i h
    have hi : i < times.length := by simp at h; omega
    have hget : times[i]? = some times[i] := List.getElem?_eq_getElem hi
    have hrest : srtLoop times (i+1) rest = some (cuesFrom times (i+1) rest) := by
      apply ih
      simp at h ⊢
      omega
    simp [srtLoop, cueAt, cuesFrom, hget, hrest]

/-- The whole of `generate_srt_file` (src/main.rs lines 85–108), with the
file system passed explicitly as a map from path to contents and the
external `subparse` serializer (`SrtFile::create` + `to_data`) abstracted as
a parameter.  Returns the updated file system together with the number of
writes performed; `none` models a panic (the `times.get(i).unwrap()` inside
the loop). -/
def generate_srt_file (serialize : List SubtitleCue → String)
    (fs : String → Option String) (path : String)
    (times : List Int) (texts : List String) :
    Option ((String → Option String) × Nat) :=
  if (fs path).isSome then some (fs, 0)
  else
    match generate_srt_lines times texts with
    | none => none
    | some cues =>
        some ((fun p => if p = path then some (serialize cues) else fs p), 1)

/-- One anchor element matched by the `li.download ul li a` selector in
`parse_video`: its `inner_html` label and its optional `href` attribute. -/
structure AnchorEl where
  label : String
  href : Option String
  deriving Repr, DecidableEq

/-- The `VideoType` enum of src/main.rs. -/
inductive VideoType
  | HD
  | SD
  deriving Repr, DecidableEq

/-- Whether `pat` is a prefix of the character list. -/
def isPrefixChars : List Char → List Char → Bool
  | [], _ => true
  | _ :: _, [] => false
  | p :: ps, c :: cs => p = c && isPrefixChars ps cs

/-- Whether `pat` occurs as a contiguous sublist. -/
def isSubChars (pat : List Char) : List Char → Bool
  | [] => pat.isEmpty
  | c :: rest => isPrefixChars pat (c :: rest) || isSubChars pat rest

/-- Rust `str::contains`: substring containment. -/
def strContains (s pat : String) : Bool :=
  isSubChars pat.toList s.toList

/-- The marker substring each quality tier looks for in the anchor label. -/
def typeMarker : VideoType → String
  | VideoType.HD => "HD"
  | VideoType.SD => "SD"

/-- The loop of `parse_video` (src/main.rs lines 111–138) over the anchors
matched by the selector, in document order.  `link` starts as `""` and the
loop breaks at the first anchor whose label contains the tier marker,
taking its `href` (the `attr("href").unwrap()` panic is `none`).  If no
anchor matches, the initial `""` is returned. -/
def parse_video : List AnchorEl → VideoType → Option String
  | [], _ => some ""
  | a :: rest, vt =>
    match vt with
    | VideoType.HD =>
        if strContains a.label "HD" then a.href else parse_video rest VideoType.HD
    | VideoType.SD =>
        if strContains a.label "SD" then a.href else parse_video rest VideoType.SD

/-- An absolute URL as produced by the external `url` crate:
scheme, host, and the path segments after the host. -/
structure ParsedUrl where
  scheme : String
  host : String
  pathSegs : List String
  deriving Repr, DecidableEq

/-- Splits a character list at the first occurrence of `://`, returning the
scheme characters and the remainder; `none` if `://` never occurs. -/
def splitScheme : List Char → Option (List Char × List Char)
  | [] => none
  | ':' :: '/' :: '/' :: rest => some ([], rest)
  | c :: rest => (splitScheme rest).map (fun p => (c :: p.1, p.2))

/-- Splits a character list on a separator character (like Rust
`str::split`, which always yields at least one piece). -/
def splitOnChar (c : Char) : List Char → List (List Char)
  | [] => [[]]
  | x :: xs =>
    let r := splitOnChar c xs
    if x = c then [] :: r
    else
      match r with
      | [] => [[x]]
      | y :: ys => (x :: y) :: ys

/-- Model of `Url::parse` from the external `url` crate (an out-of-scope
collaborator): an absolute URL needs a non-empty scheme, the literal
`://`, and a non-empty remainder, which is split on `/` into the host and
the path segments.  The empty string, and any string without `://`, fails
to parse. -/
def urlParse (s : String) : Option ParsedUrl :=
  match splitScheme s.toList with
  | none => none
  | some (schemeCs, restCs) =>
    if schemeCs.isEmpty || restCs.isEmpty then none
    else
      match splitOnChar '/' restCs with
      | [] => none
      | host :: segs =>
          some { scheme := String.mk schemeCs
                 host := String.mk host
                 pathSegs := segs.map String.mk }

/-- `u.path().split("/").last().unwrap()` of src/main.rs line 143: the last
segment of the URL path (`""` when the path is just `/`). -/
def urlFileName (u : ParsedUrl) : String :=
  u.pathSegs.getLastD ""

/-- An HTTP response as used by `download_video`: the advertised
`content_length` if any, and the stream of chunk reads, where `none` is a
failed chunk read and a chunk is its list of bytes. -/
structure HttpResponse where
  contentLength : Option Nat
  chunks : List (Option (List Nat))
  deriving Repr, DecidableEq

/-- Environment of one `download_video` call: the outcome of the GET
(`none` when the request cannot be sent), whether the destination file
already exists, and whether file creation and chunk writes succeed. -/
structure DlEnv where
  send : Option HttpResponse
  fileExists : Bool
  createOk : Bool
  writeOk : Bool

/-- The `while let Some(item) = stream.next()` loop of `download_video`
(src/main.rs lines 168–175): each chunk is written, then the counter is
updated to `min(downloaded + chunk.len(), total_size)` and reported as the
progress position.  Returns the final counter (or the first error) and the
list of positions reported. -/
def download_loop (total : Nat) (writeOk : Bool) :
    List (Option (List Nat)) → Nat → Except String Nat × List Nat
  | [], d => (Except.ok d, [])
  | none :: _, _ => (Except.error "Error while downloading file", [])
  | some chunk :: rest, d =>
    if writeOk then
      let new := min (d + chunk.length) total
      let r := download_loop total writeOk rest new
      (r.1, new :: r.2)
    else (Except.error "Error while writing to file", [])

/-- `download_video` (src/main.rs lines 140–179).  Returns `none` on the
`Url::parse(url).unwrap()` panic; otherwise the `Result<String, String>`
value paired with the number of network requests issued. -/
def download_video (env : DlEnv) (url : String) (dir : String) :
    Option (Except String String × Nat) :=
  match urlParse url with
  | none => none
  | some u =>
    let fileName := urlFileName u
    if env.fileExists then some (Except.ok fileName, 0)
    else
      match env.send with
      | none => some (Except.error ("Failed to GET from \x27" ++ url ++ "\x27"), 1)
      | some res =>
        match res.contentLength with
        | none =>
            some (Except.error
              ("Failed to get content length from \x27" ++ url ++ "\x27"), 1)
        | some total =>
          if env.createOk then
            match (download_loop total env.writeOk res.chunks 0).1 with
            | Except.error e => some (Except.error e, 1)
            | Except.ok _ => some (Except.ok fileName, 1)
          else
            some (Except.error
              ("Failed to create file \x27" ++ dir ++ "/" ++ fileName ++ "\x27"), 1)

/-- Output of the spawned external mux process: decoded standard output and
standard error (`none` models bytes that are not valid UTF-8, on which the
`String::from_utf8(..).unwrap()` calls panic), and the exit status code as
displayed. -/
structure ProcessOutput where
  stdout : Option String
  stderr : Option String
  status : Int

/-- `embed_subtitle` (src/main.rs lines 181–217): spawns ffmpeg with a fixed
argument list, waits, then logs standard output, standard error and the
exit status, returning `()` whatever the status is.  `spawned` is `none`
when the spawn or wait fails (the `unwrap`s panic, modelled `none`); the
normal return carries the three log lines emitted. -/
def embed_subtitle (spawned : Option ProcessOutput)
    (_videoName _subtitleName : String) : Option (List String) :=
  match spawned with
  | none => none
  | some out =>
    match out.stdout with
    | none => none
    | some o =>
      match out.stderr with
      | none => none
      | some e => some [o, e, "status: " ++ toString out.status]

/-- C1: for every non-empty pair of parallel lists of start times and texts,
`generate_srt_file` builds exactly one cue per entry, in order: cue `i`
starts at `times[i]`, ends at `times[i+1]` for every `i` but the last, and
the last cue ends at its own start time plus 3000 ms. -/
theorem generate_srt_lines_spec (times : List Int) (texts : List String)
    (hlen : times.length = texts.length) (hne : texts ≠ []) :
    ∃ cues, generate_srt_lines times texts = some cues ∧
      cues.length = texts.length ∧
      (∀ i : Nat, (cues[i]?).map SubtitleCue.text = texts[i]?) ∧
      (∀ i : Nat, (cues[i]?).map SubtitleCue.start_time_ms = times[i]?) ∧
      (∀ i : Nat, i + 1 < texts.length →
        (cues[i]?).map SubtitleCue.end_time_ms = times[(i+1)]?) ∧
      (cues[(texts.length - 1)]?).map SubtitleCue.end_time_ms =
        (times[(texts.length - 1)]?).map (fun t => t + 3000) := by
  have hcf := cuesFrom_getElem? times texts 0
  refine ⟨cuesFrom times 0 texts,
    srtLoop_eq_cuesFrom times texts 0 (by omega),
    cuesFrom_length times texts 0, ?_, ?_, ?_, ?_⟩
  · intro i
    rw [hcf i]
    cases texts[i]? <;> simp
  · intro i
    rw [hcf i]
    rcases Nat.lt_or_ge i texts.length with hi | hi
    · have ht : texts[i]? = some (texts[i]) := List.getElem?_eq_getElem hi
      have hi2 : i < times.length := by omega
      have hm : times[i]? = some (times[i]) := List.getElem?_eq_getElem hi2
      simp [ht, hm]
    · have ht : texts[i]? = none := by
        rw [List.getElem?_eq_none_iff]; omega
      have hm : times[i]? = none := by
        rw [List.getElem?_eq_none_iff]; omega
      simp [ht, hm]
  · intro i hi
    rw [hcf i]
    have ht : texts[i]? = some (texts[i]) := List.getElem?_eq_getElem (by omega)
    have hm : times[(i+1)]? = some (times[i+1]) :=
      List.getElem?_eq_getElem (by omega)
    simp [ht, hm]
  · have hpos : 0 < texts.length := List.length_pos.mpr hne
    rw [hcf (texts.length - 1)]
    have ht : texts[(texts.length - 1)]? = some (texts[texts.length - 1]) :=
      List.getElem?_eq_getElem (by omega)
    have hm : times[(texts.length - 1)]? = some (times[texts.length - 1]) :=
      List.getElem?_eq_getElem (by omega)
    have hnone : times[(texts.length - 1 + 1)]? = none := by
      rw [List.getElem?_eq_none_iff]; omega
    simp [ht, hm, hnone]

/-- Witness for C1 at the spec scenario `[(1000, Hello), (2500, World)]`. -/
theorem generate_srt_lines_spec_witness :
    ([1000, 2500] : List Int).length = (["Hello", "World"] : List String).length ∧
    (["Hello", "World"] : List String) ≠ [] ∧
    (∃ cues, generate_srt_lines [1000, 2500] ["Hello", "World"] = some cues ∧
      cues.length = (["Hello", "World"] : List String).length ∧
      (∀ i : Nat, (cues[i]?).map SubtitleCue.text = (["Hello", "World"] : List String)[i]?) ∧
      (∀ i : Nat, (cues[i]?).map SubtitleCue.start_time_ms = ([1000, 2500] : List Int)[i]?) ∧
      (∀ i : Nat, i + 1 < (["Hello", "World"] : List String).length →
        (cues[i]?).map SubtitleCue.end_time_ms = ([1000, 2500] : List Int)[(i+1)]?) ∧
      (cues[((["Hello", "World"] : List String).length - 1)]?).map SubtitleCue.end_time_ms =
        (([1000, 2500] : List Int)[((["Hello", "World"] : List String).length - 1)]?).map
          (fun t => t + 3000)) :=
  ⟨rfl, by decide, generate_srt_lines_spec [1000, 2500] ["Hello", "World"] rfl (by decide)⟩

/-- C2: when the start times are strictly increasing (and the input lists
are parallel), every generated cue has a strictly positive duration:
`end_time_ms > start_time_ms`. -/
theorem generate_srt_lines_pos_duration (times : List Int) (texts : List String)
    (hlen : times.length = texts.length)
    (hinc : List.Chain' (· < ·) times)
    (cues : List SubtitleCue)
    (hcues : generate_srt_lines times texts = some cues) :
    ∀ c ∈ cues, c.start_time_ms < c.end_time_ms := by
  intro c hc
  have heq := srtLoop_eq_cuesFrom times texts 0 (by omega)
  rw [generate_srt_lines, heq, Option.some_inj] at hcues
  subst hcues
  obtain ⟨j, hj⟩ := List.mem_iff_getElem?.mp hc
  rw [cuesFrom_getElem? times texts 0 j] at hj
  rcases ht : texts[j]? with _ | t
  · rw [ht] at hj; simp at hj
  · rw [ht] at hj
    simp only [Option.map_some', Option.some_inj] at hj
    have hjlt : j < texts.length := by
      rcases List.getElem?_eq_some_iff.mp ht with ⟨h, _⟩
      exact h
    subst hj
    show (times[(0+j)]?).getD 0 <
      (times[(0+j+1)]?).getD ((times[(0+j)]?).getD 0 + 3000)
    rcases Nat.lt_or_ge (j + 1) times.length with hnext | hnext
    · have hm : times[(0+j)]? = some (times[j]) := by
        simp only [Nat.zero_add]
        exact List.getElem?_eq_getElem (by omega)
      have hm2 : times[(0+j+1)]? = some (times[j+1]) := by
        simp only [Nat.zero_add]
        exact List.getElem?_eq_getElem hnext
      rw [hm, hm2]
      simp only [Option.getD_some]
      have := List.chain'_iff_get.mp hinc j (by omega)
      simpa using this
    · have hm2 : times[(0+j+1)]? = none := by
        rw [List.getElem?_eq_none_iff]; omega
      rw [hm2]
      simp only [Option.getD_none]
      omega

/-- Witness for C2 at times `[0, 1000]`, texts `[a, b]`. -/
theorem generate_srt_lines_pos_duration_witness :
    ([0, 1000] : List Int).length = (["a", "b"] : List String).length ∧
    List.Chain' (· < ·) ([0, 1000] : List Int) ∧
    generate_srt_lines [0, 1000] ["a", "b"] =
      some [⟨0, 1000, "a"⟩, ⟨1000, 4000, "b"⟩] ∧
    ∀ c ∈ ([⟨0, 1000, "a"⟩, ⟨1000, 4000, "b"⟩] : List SubtitleCue),
      c.start_time_ms < c.end_time_ms :=
  ⟨rfl, by rw [List.chain'_cons]; exact ⟨by norm_num, List.chain'_singleton 1000⟩, rfl,
    generate_srt_lines_pos_duration [0, 1000] ["a", "b"] rfl
      (by rw [List.chain'_cons]; exact ⟨by norm_num, List.chain'_singleton 1000⟩) _ rfl⟩

/-- C3: the download loop updates the counter to
`min(downloaded + chunk.len(), total_size)` after each chunk, so starting
from any counter value at most the advertised total, the counter never
exceeds the total: the final counter and every reported progress position
stay at most `total`, even when the bytes received overshoot it. -/
theorem download_loop_capped (total : Nat) (writeOk : Bool) :
    ∀ (chunks : List (Option (List Nat))) (d : Nat), d ≤ total →
      (∀ f : Nat, (download_loop total writeOk chunks d).1 = Except.ok f →
        f ≤ total) ∧
      (∀ p ∈ (download_loop total writeOk chunks d).2, p ≤ total) := by
  intro chunks
  induction chunks with
  | nil =>
    intro d hd
    constructor
    · intro f hf
      simp only [download_loop, Except.ok.injEq] at hf
      omega
    · intro p hp
      simp only [download_loop, List.not_mem_nil] at hp
  | cons c rest ih =>
    intro d hd
    cases c with
    | none =>
      constructor
      · intro f hf
        simp only [download_loop] at hf
        exact Except.noConfusion hf
      · intro p hp
        simp only [download_loop, List.not_mem_nil] at hp
    | some chunk =>
      cases hw : writeOk with
      | false =>
        constructor
        · intro f hf
          simp only [download_loop, hw, Bool.false_eq_true, if_false] at hf
          exact Except.noConfusion hf
        · intro p hp
          simp only [download_loop, hw, Bool.false_eq_true, if_false,
            List.not_mem_nil] at hp
      | true =>
        have hmin : min (d + chunk.length) total ≤ total := Nat.min_le_right _ _
        have ihm := ih (min (d + chunk.length) total) hmin
        rw [hw] at ihm
        constructor
        · intro f hf
          simp only [download_loop, hw, if_true] at hf
          exact ihm.1 f hf
        · intro p hp
          simp only [download_loop, hw, if_true, List.mem_cons] at hp
          rcases hp with hp | hp
          · omega
          · exact ihm.2 p hp

/-- Witness for C3: total 5, two 3-byte chunks (6 bytes would overshoot);
the counter reaches exactly 5 and the positions reported are 3 then 5. -/
theorem download_loop_capped_witness :
    (0 : Nat) ≤ 5 ∧
    download_loop 5 true [some [0, 0, 0], some [0, 0, 0]] 0 =
      (Except.ok 5, [3, 5]) ∧
    (∀ f : Nat, (download_loop 5 true [some [0, 0, 0], some [0, 0, 0]] 0).1 =
        Except.ok f → f ≤ 5) ∧
    (∀ p ∈ (download_loop 5 true [some [0, 0, 0], some [0, 0, 0]] 0).2,
      p ≤ 5) :=
  ⟨by decide, rfl,
    download_loop_capped 5 true [some [0, 0, 0], some [0, 0, 0]] 0 (by decide)⟩

/-- C4: when the destination file does not exist, `download_video` returns
the error `Failed to GET from <url>` if the request cannot be sent, and the
error `Failed to get content length from <url>` if the response advertises
no content length; both messages name the URL and neither case succeeds. -/
theorem download_video_errors (env : DlEnv) (url dir : String) (u : ParsedUrl)
    (hu : urlParse url = some u) (hne : env.fileExists = false) :
    (env.send = none →
      download_video env url dir =
        some (Except.error ("Failed to GET from \x27" ++ url ++ "\x27"), 1)) ∧
    (∀ res : HttpResponse, env.send = some res → res.contentLength = none →
      download_video env url dir =
        some (Except.error
          ("Failed to get content length from \x27" ++ url ++ "\x27"), 1)) := by
  constructor
  · intro hs
    simp [download_video, hu, hne, hs]
  · intro res hs hc
    simp [download_video, hu, hne, hs, hc]

/-- Witness for C4 at `http://host/talk.mp4`, one environment where the GET
fails and one whose response has no content length. -/
theorem download_video_errors_witness :
    urlParse "http://host/talk.mp4" = some ⟨"http", "host", ["talk.mp4"]⟩ ∧
    download_video ⟨none, false, true, true⟩ "http://host/talk.mp4" "out" =
      some (Except.error "Failed to GET from \x27http://host/talk.mp4\x27", 1) ∧
    download_video ⟨some ⟨none, []⟩, false, true, true⟩ "http://host/talk.mp4" "out" =
      some (Except.error
        "Failed to get content length from \x27http://host/talk.mp4\x27", 1) :=
  ⟨by decide,
    (download_video_errors ⟨none, false, true, true⟩ "http://host/talk.mp4" "out"
      ⟨"http", "host", ["talk.mp4"]⟩ (by decide) rfl).1 rfl,
    (download_video_errors ⟨some ⟨none, []⟩, false, true, true⟩ "http://host/talk.mp4"
      "out" ⟨"http", "host", ["talk.mp4"]⟩ (by decide) rfl).2 ⟨none, []⟩ rfl rfl⟩

/-- C5: when the derived destination file already exists, `download_video`
returns `Ok` with the derived file name (the last segment of the URL path)
and issues no network request. -/
theorem download_video_skips_existing (env : DlEnv) (url dir : String)
    (u : ParsedUrl) (hu : urlParse url = some u)
    (hex : env.fileExists = true) :
    download_video env url dir = some (Except.ok (urlFileName u), 0) := by
  simp [download_video, hu, hex]

/-- Witness for C5: the file exists, so the GET outcome (here a failing
send) is never consulted and zero requests are made. -/
theorem download_video_skips_existing_witness :
    urlParse "http://host/talk.mp4" = some ⟨"http", "host", ["talk.mp4"]⟩ ∧
    (⟨none, true, true, true⟩ : DlEnv).fileExists = true ∧
    download_video ⟨none, true, true, true⟩ "http://host/talk.mp4" "out" =
      some (Except.ok (urlFileName ⟨"http", "host", ["talk.mp4"]⟩), 0) :=
  ⟨by decide, rfl,
    download_video_skips_existing ⟨none, true, true, true⟩ "http://host/talk.mp4"
      "out" ⟨"http", "host", ["talk.mp4"]⟩ (by decide) rfl⟩

/-- C6: when a file already exists at the destination path,
`generate_srt_file` is a no-op that returns successfully with zero writes;
consequently a second run after any successful run performs no write and
leaves the file contents exactly as the first run left them. -/
theorem generate_srt_file_idempotent (serialize : List SubtitleCue → String)
    (fs : String → Option String) (path : String)
    (times : List Int) (texts : List String) :
    ((fs path).isSome →
      generate_srt_file serialize fs path times texts = some (fs, 0)) ∧
    (∀ (fs2 : String → Option String) (n : Nat),
      generate_srt_file serialize fs path times texts = some (fs2, n) →
      generate_srt_file serialize fs2 path times texts = some (fs2, 0)) := by
  constructor
  · intro h
    simp [generate_srt_file, h]
  · intro fs2 n hrun
    by_cases h : (fs path).isSome
    · simp only [generate_srt_file, h, if_true, Option.some_inj, Prod.mk.injEq] at hrun
      obtain ⟨h1, h2⟩ := hrun
      subst h1
      simp [generate_srt_file, h]
    · rcases hg : generate_srt_lines times texts with _ | cues
      · simp [generate_srt_file, h, hg] at hrun
      · simp only [generate_srt_file, h, if_false, hg, Option.some_inj,
          Prod.mk.injEq] at hrun
        obtain ⟨h1, h2⟩ := hrun
        simp [generate_srt_file]

/-- Witness for C6: a file system that already holds data at the
destination, and a fresh run followed by a second run. -/
theorem generate_srt_file_idempotent_witness :
    ((fun p => if p = "o.srt" then some "data" else none) "o.srt").isSome ∧
    generate_srt_file (fun _ => "xyz")
        (fun p => if p = "o.srt" then some "data" else none) "o.srt" [] [] =
      some ((fun p => if p = "o.srt" then some "data" else none), 0) ∧
    generate_srt_file (fun _ => "xyz")
        (fun p => if p = "o.srt" then some "xyz" else none) "o.srt" [] [] =
      some ((fun p => if p = "o.srt" then some "xyz" else none), 0) :=
  ⟨by decide,
    (generate_srt_file_idempotent (fun _ => "xyz")
      (fun p => if p = "o.srt" then some "data" else none) "o.srt" [] []).1
      (by decide),
    (generate_srt_file_idempotent (fun _ => "xyz")
      (fun _ => none) "o.srt" [] []).2
      (fun p => if p = "o.srt" then some "xyz" else none) 1 rfl⟩

/-- C7: `parse_video` returns the `href` of the first anchor, in document
order, whose label contains the tier marker (`HD` or `SD`), and returns the
empty string, raising no error, when no anchor matches. -/
theorem parse_video_first_match (anchors : List AnchorEl) (vt : VideoType) :
    parse_video anchors vt =
      match anchors.find? (fun a => strContains a.label (typeMarker vt)) with
      | none => some ""
      | some a => a.href := by
  induction anchors with
  | nil => cases vt <;> rfl
  | cons a rest ih =>
    cases vt with
    | HD =>
      cases h : strContains a.label "HD" with
      | false => simp [parse_video, List.find?_cons, typeMarker, h, ih]
      | true => simp [parse_video, List.find?_cons, typeMarker, h]
    | SD =>
      cases h : strContains a.label "SD" with
      | false => simp [parse_video, List.find?_cons, typeMarker, h, ih]
      | true => simp [parse_video, List.find?_cons, typeMarker, h]

/-- C8: on any input string that is no parseable absolute URL — the empty
string among them — `download_video` panics at `Url::parse(url).unwrap()`
(result `none`) instead of returning its declared `Err` value. -/
theorem download_video_panics_on_bad_url (env : DlEnv) (url dir : String)
    (h : urlParse url = none) :
    download_video env url dir = none := by
  simp [download_video, h]

/-- Witness for C8 at the empty string `parse_video` yields when no anchor
matches. -/
theorem download_video_panics_on_bad_url_witness :
    urlParse "" = none ∧
    download_video ⟨none, false, true, true⟩ "" "out" = none :=
  ⟨by decide,
    download_video_panics_on_bad_url ⟨none, false, true, true⟩ "" "out"
      (by decide)⟩

/-- C10: for every exit status of the spawned mux process — non-zero ones
included — `embed_subtitle` returns normally, its only outcome being the
log lines for standard output, standard error and the status; no failure is
surfaced to the caller. -/
theorem embed_subtitle_ignores_status (out : ProcessOutput) (o e vn sn : String)
    (ho : out.stdout = some o) (he : out.stderr = some e) :
    embed_subtitle (some out) vn sn =
      some [o, e, "status: " ++ toString out.status] := by
  simp [embed_subtitle, ho, he]

/-- Witness for C10 with a non-zero exit status. -/
theorem embed_subtitle_ignores_status_witness :
    (⟨some "so", some "se", 1⟩ : ProcessOutput).stdout = some "so" ∧
    (⟨some "so", some "se", 1⟩ : ProcessOutput).stderr = some "se" ∧
    embed_subtitle (some ⟨some "so", some "se", 1⟩) "v.mp4" "v.srt" =
      some ["so", "se", "status: " ++ toString (1 : Int)] :=
  ⟨rfl, rfl,
    embed_subtitle_ignores_status ⟨some "so", some "se", 1⟩ "so" "se"
      "v.mp4" "v.srt" rfl rfl⟩

end TechTalkDownloader
